import Mathlib

/-!
Verification development for the Telegram music bot (`src/bot.js`, first
revision, lines 1-478 — the revision whose line numbers the claims cite).
The sibling revisions (`src/unnamed/part_000` .. `part_002`) are earlier
iterations of the same file; where a claim's behaviour differs between
revisions the divergent variant is modelled separately and named after its
file.

The JavaScript is shallowly embedded: the global `trackList` array becomes a
`List Track`, handlers become pure functions from their inputs (and the bits
of ambient state they read) to the new store plus a list of observable
effects, in the order the source emits them.  Timers (`deleteLater`,
`setTimeout`) and the Telegram transport are outside the model; a fan-out
edit that may fail is driven by an explicit oracle argument.
-/

namespace MusicBot

/-- `type` field of a track: `'original' | 'cover'` (bot.js:269, 325). -/
inductive TrackType where
  | original
  | cover
deriving DecidableEq, BEq, Repr

/-- One entry of a track's `messages` array: `{ chatId, messageId }`
(bot.js:270). -/
structure MessageRef where
  chatId : Int
  messageId : Nat
deriving DecidableEq, BEq, Repr

/-- A record of the `trackList` array (bot.js:261-271).  `createdAt` is the
timestamp in milliseconds (the source stores an ISO string and always reads
it back through `new Date(t.createdAt).getTime()`). -/
structure Track where
  id : String
  fileId : String
  fileUniqueId : String
  title : String
  userId : Nat
  voters : List Nat
  createdAt : Int
  type : TrackType
  messages : List MessageRef
deriving DecidableEq, Repr

/-! ## Admin allow-list (bot.js:18-20) -/

/-- The hard-coded fallback of `process.env.ADMIN_IDS || '1100564590'`. -/
def defaultAdminId : String := "1100564590"

/-- `String.prototype.split(',')` on the character list. -/
def splitCommaAux (acc : List Char) : List Char → List (List Char)
  | [] => [acc.reverse]
  | c :: rest =>
    if c = ',' then acc.reverse :: splitCommaAux [] rest
    else splitCommaAux (c :: acc) rest

/-- `String.prototype.trim()`: strip whitespace from both ends. -/
def trimChars (cs : List Char) : List Char :=
  ((cs.dropWhile Char.isWhitespace).reverse.dropWhile Char.isWhitespace).reverse

/-- `ADMIN_IDS = (process.env.ADMIN_IDS || '1100564590').split(',')
.map(id => id.trim()).filter(Boolean)` (bot.js:18-19).  `env = none` models an
unset variable; the empty string is falsy in JavaScript, so `''` also falls
back to the default.  `filter(Boolean)` drops empty strings. -/
def adminTokens (env : Option String) : List (List Char) :=
  let raw : String :=
    match env with
    | none => defaultAdminId
    | some s => if s = "" then defaultAdminId else s
  ((splitCommaAux [] raw.data).map trimChars).filter (fun t => t ≠ [])

/-- `isAdmin = (id) => ADMIN_IDS.includes(String(id))` (bot.js:20);
`String(id)` of a Telegram user id is its decimal representation. -/
def isAdmin (env : Option String) (uid : Nat) : Bool :=
  (adminTokens env).contains (Nat.repr uid).data

/-! ## Like toggling (bot.js:338-357)

`const i = tr.voters.indexOf(uid); if (i >= 0) tr.voters.splice(i, 1); else
tr.voters.push(uid);` — `indexOf(uid) >= 0` is exactly membership, and
`splice(i, 1)` at the first index of `uid` removes the first occurrence. -/

/-- The voter-array mutation of the like action handler. -/
def toggleLike (voters : List Nat) (uid : Nat) : List Nat :=
  if uid ∈ voters then voters.erase uid else voters ++ [uid]

/-- Helper: toggling `uid` never touches any other user's membership. -/
theorem mem_toggleLike_of_ne {voters : List Nat} {uid v : Nat} (hv : v ≠ uid) :
    v ∈ toggleLike voters uid ↔ v ∈ voters := by
  unfold toggleLike
  by_cases h : uid ∈ voters
  · rw [if_pos h]
    exact List.mem_erase_of_ne hv
  · rw [if_neg h, List.mem_append]
    simp [hv]

/-- C10: with `ADMIN_IDS` unset or set to the empty string, the allow-list is
exactly the single hard-coded identifier `"1100564590"`, and in general a user
passes `isAdmin` iff the decimal string form of their id is a member of the
allow-list. -/
theorem C10_admin_allowlist :
    adminTokens none = [defaultAdminId.data]
    ∧ adminTokens (some "") = [defaultAdminId.data]
    ∧ ∀ (env : Option String) (uid : Nat),
        isAdmin env uid = true ↔ (Nat.repr uid).data ∈ adminTokens env := by
  refine ⟨by decide, by decide, ?_⟩
  intro env uid
  unfold isAdmin
  exact List.elem_iff

/-- C2: toggling the same user's like twice restores the original voter set
(as a set) and like count, provided the voter array lists the user at most
once (an invariant of the store: arrays start empty and every mutation is a
toggle). -/
theorem C2_toggle_twice (voters : List Nat) (uid : Nat)
    (h : voters.count uid ≤ 1) :
    (toggleLike (toggleLike voters uid) uid).toFinset = voters.toFinset
    ∧ (toggleLike (toggleLike voters uid) uid).length = voters.length := by
  by_cases hmem : uid ∈ voters
  · have hcount : voters.count uid = 1 :=
      Nat.le_antisymm h (List.count_pos_iff.mpr hmem)
    have h1 : toggleLike voters uid = voters.erase uid := if_pos hmem
    have hout : uid ∉ voters.erase uid := by
      intro hc
      have := List.count_pos_iff.mpr hc
      rw [List.count_erase_self, hcount] at this
      omega
    have h2 : toggleLike (voters.erase uid) uid = voters.erase uid ++ [uid] :=
      if_neg hout
    rw [h1, h2]
    constructor
    · ext v
      simp only [List.mem_toFinset, List.mem_append, List.mem_singleton]
      by_cases hv : v = uid
      · subst hv; simp [hmem]
      · simp [List.mem_erase_of_ne hv, hv]
    · rw [List.length_append, List.length_erase_of_mem hmem,
        List.length_singleton]
      have : 0 < voters.length := List.length_pos.mpr (by
        intro hnil; rw [hnil] at hmem; exact (List.not_mem_nil uid) hmem)
      omega
  · have h1 : toggleLike voters uid = voters ++ [uid] := if_neg hmem
    have hin : uid ∈ voters ++ [uid] := by simp
    have h2 : toggleLike (voters ++ [uid]) uid = voters := by
      unfold toggleLike
      rw [if_pos hin, List.erase_append_right _ hmem]
      simp
    rw [h1, h2]
    exact ⟨rfl, rfl⟩

/-- C2 witness: concrete run of the double toggle on `[3, 5]` with user `7`
(not yet a voter) — membership flips there and back. -/
theorem C2_toggle_twice_witness :
    ([3, 5] : List Nat).count 7 ≤ 1
    ∧ (toggleLike (toggleLike [3, 5] 7) 7).toFinset = ([3, 5] : List Nat).toFinset
    ∧ (toggleLike (toggleLike [3, 5] 7) 7).length = ([3, 5] : List Nat).length :=
  ⟨by decide, (C2_toggle_twice [3, 5] 7 (by decide)).1,
    (C2_toggle_twice [3, 5] 7 (by decide)).2⟩

/-! ## Upload handling (bot.js:228-296) -/

/-- The fields of `ctx.message.audio || ctx.message.document` the handler
reads: transfer handle `file_id`, content-unique handle `file_unique_id`, and
the optional display name `file_name`. -/
structure FileMeta where
  fileId : String
  fileUniqueId : String
  fileName : Option String
deriving DecidableEq, Repr

/-- `trackList.some(t => t.fileId === file.file_id || t.fileUniqueId ===
file.file_unique_id)` (bot.js:236). -/
def isDuplicate (store : List Track) (f : FileMeta) : Bool :=
  store.any (fun t => t.fileId == f.fileId || t.fileUniqueId == f.fileUniqueId)

/-- The character class of `/[\\/:*?"<>|]+/` (bot.js:258). -/
def isPathHostile (c : Char) : Bool :=
  c = '\\' || c = '/' || c = ':' || c = '*' || c = '?' || c = '"'
    || c = '<' || c = '>' || c = '|'

/-- `.replace(/[\\/:*?"<>|]+/g, '_')`: each maximal run of hostile characters
collapses to a single underscore.  `prevHostile` records whether the previous
character belonged to such a run. -/
def sanitizeAux (prevHostile : Bool) : List Char → List Char
  | [] => []
  | c :: rest =>
    if isPathHostile c then
      if prevHostile then sanitizeAux true rest
      else '_' :: sanitizeAux true rest
    else c :: sanitizeAux false rest

/-- `const safeName = (file.file_name || ...).replace(...)` (bot.js:258); an
absent or empty (falsy) `file_name` falls back to a timestamped default. -/
def safeName (f : FileMeta) (now : Int) : String :=
  let base : String :=
    match f.fileName with
    | none => "track_" ++ toString now ++ ".mp3"
    | some n => if n = "" then "track_" ++ toString now ++ ".mp3" else n
  ⟨sanitizeAux false base.data⟩

/-- `likeBar(track, userId).text` (bot.js:93):
`` `❤️ ${track.voters.length} — ${track.title}` ``. -/
def likeBarText (t : Track) : String :=
  "❤️ " ++ toString t.voters.length ++ " — " ++ t.title

/-- Observable effects a handler performs, in source order.  `persist` is
`safeSave()`; `reply`/`editMsg`/`editCurrent`/`delMsg`/`answerCb` are the
transport calls. -/
inductive Effect where
  | reply (text : String)
  | persist
  | editMsg (m : MessageRef) (text : String)
  | editCurrent (text : String)
  | delMsg (chatId : Int) (messageId : Nat)
  | answerCb (text : String)
deriving DecidableEq, Repr

/-- The audio upload handler (bot.js:228-296).  `chatId`/`msgId` address the
user's upload message, `now` is `Date.now()`, and `mid1 mid2 mid3` are the
message ids Telegram assigns to the three bot replies (confirmation,
type-selector, like bar).  Returns the new store and the handler's effect
trace.  `deleteLater` timers are not modelled (they only schedule deferred
message deletions). -/
def uploadAudio (store : List Track) (f : FileMeta) (uploader : Nat)
    (chatId : Int) (msgId : Nat) (now : Int)
    (mid1 mid2 mid3 : Nat) : List Track × List Effect :=
  if isDuplicate store f then
    -- bot.js:239-254: delete the user's message, warn, and return
    (store, [Effect.delMsg chatId msgId,
             Effect.reply "⚠️ Такой трек уже есть в списке."])
  else
    let name := safeName f now
    let newId := f.fileUniqueId ++ "_" ++ toString now
    -- bot.js:261-271 with the three `track.messages.push` of lines 275-288
    let track : Track :=
      { id := newId, fileId := f.fileId, fileUniqueId := f.fileUniqueId,
        title := name, userId := uploader, voters := [], createdAt := now,
        type := TrackType.original,
        messages := [⟨chatId, msgId⟩, ⟨chatId, mid1⟩, ⟨chatId, mid2⟩,
                     ⟨chatId, mid3⟩] }
    -- bot.js:273-291: three replies, then `trackList.push` + `safeSave()`
    (store ++ [track],
     [Effect.reply ("✅ Трек добавлен: " ++ name),
      Effect.reply "Выбери тип трека:",
      Effect.reply (likeBarText track),
      Effect.persist])

/-- Sample stored track for concrete runs. -/
def exStoredTrack : Track :=
  { id := "U1_50", fileId := "A", fileUniqueId := "U1", title := "song",
    userId := 1, voters := [], createdAt := 50, type := TrackType.original,
    messages := [] }

/-- An upload carrying the same transfer handle as `exStoredTrack` but a
different content-unique handle. -/
def exSameFileIdUpload : FileMeta :=
  { fileId := "A", fileUniqueId := "U2", fileName := some "other" }

/-- C3 counterexample: an upload whose `file_unique_id` matches no stored
track is still rejected as a duplicate (store unchanged, warning emitted)
because its `file_id` matches — refuting "matching is by content-unique
handle only". -/
theorem C3_counterexample :
    isDuplicate [exStoredTrack] exSameFileIdUpload = true
    ∧ ([exStoredTrack].all
        (fun t => !(t.fileUniqueId == exSameFileIdUpload.fileUniqueId))) = true
    ∧ uploadAudio [exStoredTrack] exSameFileIdUpload 2 0 9 60 10 11 12
        = ([exStoredTrack],
           [Effect.delMsg 0 9,
            Effect.reply "⚠️ Такой трек уже есть в списке."]) := by
  refine ⟨by decide, by decide, ?_⟩
  rfl

/-- C3 amended: an upload is rejected as a duplicate (warning, store
unchanged) iff an existing track has the same transfer handle (`file_id`) OR
the same content-unique handle (`file_unique_id`); display names are never
consulted (retitling every stored track cannot change the verdict). -/
theorem C3_amended (store : List Track) (f : FileMeta) (g : Track → String)
    (uploader : Nat) (chatId : Int) (msgId : Nat) (now : Int)
    (mid1 mid2 mid3 : Nat) :
    (isDuplicate store f = true
      ↔ ∃ t ∈ store, t.fileId = f.fileId ∨ t.fileUniqueId = f.fileUniqueId)
    ∧ isDuplicate (store.map (fun t => { t with title := g t })) f
        = isDuplicate store f
    ∧ (isDuplicate store f = true →
        uploadAudio store f uploader chatId msgId now mid1 mid2 mid3
          = (store, [Effect.delMsg chatId msgId,
                     Effect.reply "⚠️ Такой трек уже есть в списке."])) := by
  refine ⟨?_, ?_, ?_⟩
  · simp [isDuplicate, List.any_eq_true]
  · simp [isDuplicate, List.any_map]
    rfl
  · intro h
    simp [uploadAudio, h]

/-- C3 amended witness: a second upload of the stored content-unique handle
is rejected and leaves the store unchanged. -/
theorem C3_amended_witness :
    isDuplicate [exStoredTrack]
        ⟨"B", "U1", some "copy"⟩ = true
    ∧ uploadAudio [exStoredTrack] ⟨"B", "U1", some "copy"⟩ 3 0 7 80 20 21 22
        = ([exStoredTrack],
           [Effect.delMsg 0 7,
            Effect.reply "⚠️ Такой трек уже есть в списке."]) :=
  ⟨by decide,
    (C3_amended [exStoredTrack] ⟨"B", "U1", some "copy"⟩ (fun _ => "x")
        3 0 7 80 20 21 22).2.2 (by decide)⟩

/-! ## Like action handler (bot.js:338-404) -/

/-- `trackList.find(t => t.id === id)` (bot.js:340). -/
def findTrack (store : List Track) (id : String) : Option Track :=
  store.find? (fun t => t.id == id)

/-- `find` returns a live reference, so mutating the found track rewrites the
first store entry with that id and nothing else. -/
def updateFirstTrack (id : String) (f : Track → Track) :
    List Track → List Track
  | [] => []
  | t :: ts => if t.id == id then f t :: ts else t :: updateFirstTrack id f ts

/-- Result of one run of the like action handler. -/
structure LikeResult where
  store : List Track
  effects : List Effect
  updatedViews : List MessageRef
  found : Bool
deriving Repr

/-- The like action handler (bot.js:338-404).  `eff` is the random emoji
`likeEffect()` picks; `editFails m = true` means the fan-out edit of message
`m` throws (bot.js:381-386) — the error is swallowed and, in this revision,
`tr.messages` is left untouched.  The first `editMessageText` on the clicked
message (bot.js:363-373) is modelled as a single attempted `editCurrent`; the
temp-play panel refresh (bot.js:389-401) touches no track state and is not
modelled. -/
def likeAction (store : List Track) (trackId : String) (uid : Nat)
    (eff : String) (editFails : MessageRef → Bool) : LikeResult :=
  match findTrack store trackId with
  | none =>
    -- bot.js:341: `if (!tr) return ctx.answerCbQuery('Не найден')`
    { store := store, effects := [Effect.answerCb "Не найден"],
      updatedViews := [], found := false }
  | some tr =>
    -- bot.js:343-355: toggle + toast replies
    let toastEffects : List Effect :=
      if uid ∈ tr.voters then [Effect.reply "💤 Лайк снят"]
      else [Effect.reply eff, Effect.reply "🔥 Лайк поставлен"]
    let tr2 : Track := { tr with voters := toggleLike tr.voters uid }
    let text := likeBarText tr2
    -- bot.js:378-387: fan-out; failed edits are ignored, registry unchanged
    let okViews := tr.messages.filter (fun m => !editFails m)
    { store := updateFirstTrack trackId
        (fun t => { t with voters := toggleLike t.voters uid }) store,
      effects := toastEffects
        ++ [Effect.persist, Effect.editCurrent text]
        ++ okViews.map (fun m => Effect.editMsg m text)
        ++ [Effect.answerCb ""],
      updatedViews := okViews,
      found := true }

/-- Outcome of one `editMessageText` call in the `part_000` fan-out loop. -/
inductive EditOutcome where
  | ok
  | notFound
  | otherError
deriving DecidableEq, Repr

/-- The `updatedMessages` loop of the like handler in
`src/unnamed/part_000` (lines 325-341): a successfully edited message is
kept; a message whose edit throws `message to edit not found` is dropped;
any other edit error keeps the reference.  `tr.messages` is replaced by the
result. -/
def part000UpdatedMessages (oracle : MessageRef → EditOutcome) :
    List MessageRef → List MessageRef
  | [] => []
  | m :: ms =>
    match oracle m with
    | EditOutcome.ok => m :: part000UpdatedMessages oracle ms
    | EditOutcome.notFound => part000UpdatedMessages oracle ms
    | EditOutcome.otherError => m :: part000UpdatedMessages oracle ms

/-- Helper: the `part_000` loop keeps exactly the references whose edit did
not fail with `message to edit not found`. -/
theorem part000UpdatedMessages_eq_filter (oracle : MessageRef → EditOutcome)
    (ms : List MessageRef) :
    part000UpdatedMessages oracle ms
      = ms.filter (fun m => !(oracle m == EditOutcome.notFound)) := by
  induction ms with
  | nil => rfl
  | cons m ms ih =>
    rw [part000UpdatedMessages, List.filter_cons]
    cases h : oracle m <;> simp [h, ih]

/-- Three registered views of one track. -/
def exView1 : MessageRef := ⟨100, 11⟩

def exView2 : MessageRef := ⟨100, 12⟩

def exView3 : MessageRef := ⟨100, 13⟩

/-- A track with three registered views and no voters yet. -/
def exTrack3Views : Track :=
  { id := "T1", fileId := "F", fileUniqueId := "U", title := "tune",
    userId := 1, voters := [], createdAt := 0, type := TrackType.original,
    messages := [exView1, exView2, exView3] }

/-- Edit oracle under which only the middle view fails. -/
def failsOnlyView2 (m : MessageRef) : Bool :=
  decide (m = exView2)

/-- C1 counterexample: in bot.js's like handler, when the middle of three
registered views fails to re-render, the other two are updated and the
handler completes, but the failed view is NOT dropped: the track's registry
still holds all three entries, refuting "the registry for that track shrinks
to two entries". -/
theorem C1_counterexample :
    (likeAction [exTrack3Views] "T1" 7 "💥" failsOnlyView2).updatedViews
        = [exView1, exView3]
    ∧ (likeAction [exTrack3Views] "T1" 7 "💥" failsOnlyView2).found = true
    ∧ (findTrack (likeAction [exTrack3Views] "T1" 7 "💥" failsOnlyView2).store
          "T1").map Track.messages = some [exView1, exView2, exView3]
    ∧ ¬ (findTrack (likeAction [exTrack3Views] "T1" 7 "💥"
          failsOnlyView2).store "T1").map (fun t => t.messages.length)
        = some 2 := by
  refine ⟨by decide, by decide, by decide, by decide⟩

/-- Helper: rewriting the first track with a given id (through an
id-preserving update) is what a subsequent `find` observes. -/
theorem findTrack_updateFirstTrack (f : Track → Track)
    (hf : ∀ t, (f t).id = t.id) (trackId : String) :
    ∀ (store : List Track) (tr : Track),
      findTrack store trackId = some tr →
        findTrack (updateFirstTrack trackId f store) trackId = some (f tr) := by
  intro store
  induction store with
  | nil => intro tr h; simp [findTrack] at h
  | cons t ts ih =>
    intro tr h
    by_cases ht : (t.id == trackId) = true
    · have htr : t = tr := by
        simp only [findTrack, List.find?, ht] at h
        exact Option.some.inj h
      subst htr
      have hft : ((f t).id == trackId) = true := by
        rw [hf t]; exact ht
      simp [updateFirstTrack, findTrack, List.find?, ht, hft]
    · have hrest : findTrack ts trackId = some tr := by
        simp only [findTrack, List.find?] at h
        rw [Bool.not_eq_true] at ht
        rw [ht] at h
        exact h
      rw [Bool.not_eq_true] at ht
      simp only [updateFirstTrack, ht, Bool.false_eq_true, if_false,
        findTrack, List.find?]
      exact ih tr hrest

/-- C1 amended: each registered view is updated independently — every view
whose edit succeeds receives the re-render and the handler still reports
success — but in bot.js a failed view is not dropped: the track's registry is
left exactly as it was.  Only the `part_000` revision is self-healing, and
there a view is dropped precisely when its edit fails with `message to edit
not found` (so one such failure among three views leaves two); edits failing
with any other error keep their entry. -/
theorem C1_amended (store : List Track) (trackId : String) (uid : Nat)
    (eff : String) (editFails : MessageRef → Bool) (tr : Track)
    (h : findTrack store trackId = some tr) :
    (likeAction store trackId uid eff editFails).updatedViews
        = tr.messages.filter (fun m => !editFails m)
    ∧ (likeAction store trackId uid eff editFails).found = true
    ∧ findTrack (likeAction store trackId uid eff editFails).store trackId
        = some { tr with voters := toggleLike tr.voters uid }
    ∧ (Track.messages { tr with voters := toggleLike tr.voters uid })
        = tr.messages
    ∧ ∀ oracle : MessageRef → EditOutcome,
        part000UpdatedMessages oracle tr.messages
          = tr.messages.filter (fun m => !(oracle m == EditOutcome.notFound)) := by
  have hstore : findTrack
      (updateFirstTrack trackId
        (fun t => { t with voters := toggleLike t.voters uid }) store) trackId
      = some { tr with voters := toggleLike tr.voters uid } :=
    findTrack_updateFirstTrack
      (fun t => { t with voters := toggleLike t.voters uid })
      (fun _ => rfl) trackId store tr h
  refine ⟨?_, ?_, ?_, rfl, fun oracle => part000UpdatedMessages_eq_filter oracle tr.messages⟩
  · simp [likeAction, h]
  · simp [likeAction, h]
  · simp only [likeAction, h]
    exact hstore

/-- C1 amended witness: concrete three-view fan-out with the middle view
failing — the surviving views are re-rendered, the handler succeeds, and the
registry keeps all three references; the `part_000` pruning loop on the same
views with a `message to edit not found` failure keeps the other two. -/
theorem C1_amended_witness :
    findTrack [exTrack3Views] "T1" = some exTrack3Views
    ∧ (likeAction [exTrack3Views] "T1" 7 "💥" failsOnlyView2).updatedViews
        = exTrack3Views.messages.filter (fun m => !failsOnlyView2 m)
    ∧ findTrack (likeAction [exTrack3Views] "T1" 7 "💥" failsOnlyView2).store
          "T1"
        = some { exTrack3Views with
                  voters := toggleLike exTrack3Views.voters 7 } :=
  ⟨by decide,
    (C1_amended [exTrack3Views] "T1" 7 "💥" failsOnlyView2 exTrack3Views
      (by decide)).1,
    (C1_amended [exTrack3Views] "T1" 7 "💥" failsOnlyView2 exTrack3Views
      (by decide)).2.2.1⟩

/-- C9: the like action is frame-preserving — the store keeps its length and
every track keeps its id, file handles, title, owner, creation time, type and
registered views; for any user other than the toggler, membership in every
track's voter list is unchanged. -/
theorem C9_like_frame (store : List Track) (trackId : String) (uid : Nat)
    (eff : String) (editFails : MessageRef → Bool) :
    List.Forall₂
      (fun t t2 =>
        t2.id = t.id ∧ t2.fileId = t.fileId
        ∧ t2.fileUniqueId = t.fileUniqueId ∧ t2.title = t.title
        ∧ t2.userId = t.userId ∧ t2.createdAt = t.createdAt
        ∧ t2.type = t.type ∧ t2.messages = t.messages
        ∧ ∀ v : Nat, v ≠ uid → (v ∈ t2.voters ↔ v ∈ t.voters))
      store (likeAction store trackId uid eff editFails).store := by
  have hrefl : ∀ t : Track,
      t.id = t.id ∧ t.fileId = t.fileId ∧ t.fileUniqueId = t.fileUniqueId
      ∧ t.title = t.title ∧ t.userId = t.userId ∧ t.createdAt = t.createdAt
      ∧ t.type = t.type ∧ t.messages = t.messages
      ∧ ∀ v : Nat, v ≠ uid → (v ∈ t.voters ↔ v ∈ t.voters) := by
    intro t
    refine ⟨rfl, rfl, rfl, rfl, rfl, rfl, rfl, rfl, fun v _ => Iff.rfl⟩
  have hupd : List.Forall₂
      (fun t t2 =>
        t2.id = t.id ∧ t2.fileId = t.fileId
        ∧ t2.fileUniqueId = t.fileUniqueId ∧ t2.title = t.title
        ∧ t2.userId = t.userId ∧ t2.createdAt = t.createdAt
        ∧ t2.type = t.type ∧ t2.messages = t.messages
        ∧ ∀ v : Nat, v ≠ uid → (v ∈ t2.voters ↔ v ∈ t.voters))
      store (updateFirstTrack trackId
        (fun t => { t with voters := toggleLike t.voters uid }) store) := by
    induction store with
    | nil => exact List.Forall₂.nil
    | cons t ts ih =>
      rw [updateFirstTrack]
      by_cases ht : t.id == trackId
      · rw [if_pos ht]
        refine List.Forall₂.cons
          ⟨rfl, rfl, rfl, rfl, rfl, rfl, rfl, rfl,
            fun v hv => mem_toggleLike_of_ne hv⟩
          (List.forall₂_same.mpr (fun t2 _ => hrefl t2))
      · rw [if_neg ht]
        exact List.Forall₂.cons (hrefl t) ih
  cases hfind : findTrack store trackId with
  | none =>
    simp only [likeAction, hfind]
    exact List.forall₂_same.mpr (fun t _ => hrefl t)
  | some tr =>
    simp only [likeAction, hfind]
    exact hupd

/-- C9 witness: the frame property instantiated on a concrete store and
toggler. -/
theorem C9_like_frame_witness :
    List.Forall₂
      (fun t t2 =>
        t2.id = t.id ∧ t2.fileId = t.fileId
        ∧ t2.fileUniqueId = t.fileUniqueId ∧ t2.title = t.title
        ∧ t2.userId = t.userId ∧ t2.createdAt = t.createdAt
        ∧ t2.type = t.type ∧ t2.messages = t.messages
        ∧ ∀ v : Nat, v ≠ 7 → (v ∈ t2.voters ↔ v ∈ t.voters))
      [exStoredTrack, exTrack3Views]
      (likeAction [exStoredTrack, exTrack3Views] "T1" 7 "💎"
        (fun _ => false)).store :=
  C9_like_frame [exStoredTrack, exTrack3Views] "T1" 7 "💎" (fun _ => false)

/-! ## List projections (bot.js:112-125)

`[...trackList].sort((a, b) => b.voters.length - a.voters.length)` is, per
the ECMAScript specification, a *stable* sort: elements compare-equal under
the comparator (equal like counts) keep their relative order from the input
array.  `sortByVotesDesc` is the standard stable insertion sort for that
comparator: a later element is inserted after every earlier element whose
like count is at least as large. -/

/-- Insert `t` (which precedes the elements of the list in the input) before
the first element whose like count does not exceed `t`'s. -/
def insertByVotes (t : Track) : List Track → List Track
  | [] => [t]
  | u :: us =>
    if t.voters.length < u.voters.length then u :: insertByVotes t us
    else t :: u :: us

/-- The stable descending-like-count sort of
`(a, b) => b.voters.length - a.voters.length`. -/
def sortByVotesDesc : List Track → List Track
  | [] => []
  | t :: ts => insertByVotes t (sortByVotesDesc ts)

/-- `Date.now() - 7 * 86400000` window (bot.js:119). -/
def weekMs : Int := 7 * 86400000

/-- `pickListByKey(key, userId)` (bot.js:112-125); `now` is `Date.now()`. -/
def pickListByKey (key : String) (store : List Track) (uid : Nat)
    (now : Int) : List Track :=
  if key == "mine" then store.filter (fun t => t.userId == uid)
  else if key == "orig" then
    store.filter (fun t => t.type == TrackType.original)
  else if key == "cover" then
    store.filter (fun t => t.type == TrackType.cover)
  else if key == "global" then sortByVotesDesc store
  else if key == "week" then
    sortByVotesDesc (store.filter (fun t => now - weekMs ≤ t.createdAt))
  else store

/-- Helper: inserting is a permutation-preserving cons. -/
theorem insertByVotes_perm (t : Track) (us : List Track) :
    List.Perm (insertByVotes t us) (t :: us) := by
  induction us with
  | nil => rfl
  | cons u us ih =>
    rw [insertByVotes]
    by_cases hc : t.voters.length < u.voters.length
    · rw [if_pos hc]
      exact (ih.cons u).trans (List.Perm.swap t u us)
    · rw [if_neg hc]

/-- Helper: the stable sort permutes its input. -/
theorem sortByVotesDesc_perm (l : List Track) :
    List.Perm (sortByVotesDesc l) l := by
  induction l with
  | nil => rfl
  | cons t ts ih =>
    exact (insertByVotes_perm t (sortByVotesDesc ts)).trans (ih.cons t)

/-- Helper: membership in an insertion. -/
theorem mem_insertByVotes {x t : Track} {us : List Track} :
    x ∈ insertByVotes t us ↔ x = t ∨ x ∈ us := by
  rw [(insertByVotes_perm t us).mem_iff, List.mem_cons]

/-- Helper: insertion preserves descending like-count order. -/
theorem insertByVotes_pairwise (t : Track) (us : List Track)
    (h : us.Pairwise (fun a b => b.voters.length ≤ a.voters.length)) :
    (insertByVotes t us).Pairwise
      (fun a b => b.voters.length ≤ a.voters.length) := by
  induction us with
  | nil => simp [insertByVotes]
  | cons u us ih =>
    rw [insertByVotes]
    rcases List.pairwise_cons.mp h with ⟨hu, hus⟩
    by_cases hc : t.voters.length < u.voters.length
    · rw [if_pos hc]
      refine List.pairwise_cons.mpr ⟨?_, ih hus⟩
      intro x hx
      rcases mem_insertByVotes.mp hx with hxt | hxus
      · subst hxt; omega
      · exact hu x hxus
    · rw [if_neg hc]
      refine List.pairwise_cons.mpr ⟨?_, h⟩
      intro x hx
      rcases List.mem_cons.mp hx with hxu | hxus
      · subst hxu; omega
      · have := hu x hxus; omega

/-- Helper: the sorted output is in descending like-count order. -/
theorem sortByVotesDesc_pairwise (l : List Track) :
    (sortByVotesDesc l).Pairwise
      (fun a b => b.voters.length ≤ a.voters.length) := by
  induction l with
  | nil => simp [sortByVotesDesc]
  | cons t ts ih => exact insertByVotes_pairwise t (sortByVotesDesc ts) ih

/-- Helper: stability of the insertion, phrased as filter-commutation — the
elements of any fixed like count keep their relative order. -/
theorem filter_insertByVotes (t : Track) (us : List Track) (n : Nat) :
    (insertByVotes t us).filter (fun x => x.voters.length == n)
      = (t :: us).filter (fun x => x.voters.length == n) := by
  induction us with
  | nil => rfl
  | cons u us ih =>
    rw [insertByVotes]
    by_cases hc : t.voters.length < u.voters.length
    · rw [if_pos hc]
      simp only [List.filter_cons, ih]
      by_cases hu : u.voters.length = n
      · have ht : ¬ t.voters.length = n := by omega
        have hub : (u.voters.length == n) = true := beq_iff_eq.mpr hu
        have htb : (t.voters.length == n) = false :=
          beq_eq_false_iff_ne.mpr ht
        rw [hub, htb]
        simp
      · have hub : (u.voters.length == n) = false :=
          beq_eq_false_iff_ne.mpr hu
        rw [hub]
        simp
    · rw [if_neg hc]

/-- Helper: stability of the sort — for every like count `n`, the
subsequence of tracks with that count equals the input's subsequence. -/
theorem filter_sortByVotesDesc (l : List Track) (n : Nat) :
    (sortByVotesDesc l).filter (fun x => x.voters.length == n)
      = l.filter (fun x => x.voters.length == n) := by
  induction l with
  | nil => rfl
  | cons t ts ih =>
    rw [sortByVotesDesc, filter_insertByVotes]
    simp only [List.filter_cons]
    rw [ih]

/-- Two tracks with equal (zero) like counts and different creation times,
older one first in the store. -/
def exOlderTrack : Track :=
  { id := "old", fileId := "FO", fileUniqueId := "UO", title := "older",
    userId := 1, voters := [], createdAt := 100,
    type := TrackType.original, messages := [] }

def exNewerTrack : Track :=
  { id := "new", fileId := "FN", fileUniqueId := "UN", title := "newer",
    userId := 1, voters := [], createdAt := 200,
    type := TrackType.original, messages := [] }

/-- C5 counterexample: in the top-all-time projection, two tracks with equal
like counts keep their store order — the older track stays first even though
it was created earlier, refuting "ties broken by descending creation time
(newest first)". -/
theorem C5_counterexample :
    pickListByKey "global" [exOlderTrack, exNewerTrack] 1 300
        = [exOlderTrack, exNewerTrack]
    ∧ exOlderTrack.voters.length = exNewerTrack.voters.length
    ∧ exOlderTrack.createdAt < exNewerTrack.createdAt
    ∧ pickListByKey "global" [exOlderTrack, exNewerTrack] 1 300
        ≠ [exNewerTrack, exOlderTrack] := by
  refine ⟨by decide, by decide, by decide, by decide⟩

/-- C5 amended: the like-count projections (top all-time and top this-week)
order tracks by descending like count, with ties keeping the relative order
the tracks have in the underlying store (JavaScript's sort is stable and the
comparator uses only the like count — creation time is not consulted); the
order is a pure function of the store, hence deterministic across repeated
queries over identical inputs. -/
theorem C5_amended (store : List Track) (uid : Nat) (now : Int) :
    (List.Perm (pickListByKey "global" store uid now) store
      ∧ (pickListByKey "global" store uid now).Pairwise
          (fun a b => b.voters.length ≤ a.voters.length)
      ∧ ∀ n : Nat,
          (pickListByKey "global" store uid now).filter
              (fun x => x.voters.length == n)
            = store.filter (fun x => x.voters.length == n))
    ∧ (List.Perm (pickListByKey "week" store uid now)
          (store.filter (fun t => now - weekMs ≤ t.createdAt))
      ∧ (pickListByKey "week" store uid now).Pairwise
          (fun a b => b.voters.length ≤ a.voters.length)
      ∧ ∀ n : Nat,
          (pickListByKey "week" store uid now).filter
              (fun x => x.voters.length == n)
            = (store.filter (fun t => now - weekMs ≤ t.createdAt)).filter
                (fun x => x.voters.length == n)) := by
  have hg : pickListByKey "global" store uid now = sortByVotesDesc store := rfl
  have hw : pickListByKey "week" store uid now
      = sortByVotesDesc (store.filter (fun t => now - weekMs ≤ t.createdAt)) :=
    rfl
  rw [hg, hw]
  exact ⟨⟨sortByVotesDesc_perm store, sortByVotesDesc_pairwise store,
      fun n => filter_sortByVotesDesc store n⟩,
    ⟨sortByVotesDesc_perm _, sortByVotesDesc_pairwise _,
      fun n => filter_sortByVotesDesc _ n⟩⟩

/-- C5 amended witness: the projection evaluated on the concrete two-track
store — a permutation in descending like-count order whose zero-like class
keeps the store order. -/
theorem C5_amended_witness :
    List.Perm (pickListByKey "global" [exOlderTrack, exNewerTrack] 1 300)
        [exOlderTrack, exNewerTrack]
    ∧ (pickListByKey "global" [exOlderTrack, exNewerTrack] 1 300).filter
          (fun x => x.voters.length == 0)
        = ([exOlderTrack, exNewerTrack] : List Track).filter
            (fun x => x.voters.length == 0) :=
  ⟨(C5_amended [exOlderTrack, exNewerTrack] 1 300).1.1,
    (C5_amended [exOlderTrack, exNewerTrack] 1 300).1.2.2 0⟩

/-! ## Pagination (bot.js:127-175) -/

/-- `perPage = 10` (bot.js:128). -/
def perPage : Nat := 10

/-- `Math.max(1, Math.ceil(list.length / perPage))` (bot.js:129). -/
def totalPagesFor (len : Nat) : Nat :=
  max 1 ((len + perPage - 1) / perPage)

/-- What one call of `showTracks` produces (bot.js:127-160): the stored
pagination session, whether the empty notice was sent instead of a page, and
the rendered page with its navigation affordances. -/
structure RenderResult where
  sessionAfter : Option (String × Nat)
  emptyNotice : Bool
  page : Nat
  totalPages : Nat
  entries : List Track
  hasPrev : Bool
  hasNext : Bool
deriving DecidableEq, Repr

/-- `showTracks(ctx, list, title, page)` (bot.js:127-160).  The session is
stored *before* the empty check (bot.js:133), so an empty list still leaves
`{key, page}` behind; the `part_000` revision deletes it there instead.
`list.slice(start, start + perPage)` is `drop`/`take`; the Back button exists
iff `page > 1`, the Next button iff `page < totalPages` (bot.js:154-155). -/
def showTracks (list : List Track) (key : String) (reqPage : Nat) :
    RenderResult :=
  let tp := totalPagesFor list.length
  let page := min (max 1 reqPage) tp
  if list.length = 0 then
    { sessionAfter := some (key, page), emptyNotice := true,
      page := page, totalPages := tp, entries := [],
      hasPrev := false, hasNext := false }
  else
    { sessionAfter := some (key, page), emptyNotice := false,
      page := page, totalPages := tp,
      entries := (list.drop ((page - 1) * perPage)).take perPage,
      hasPrev := decide (1 < page), hasNext := decide (page < tp) }

/-- `refreshPagination(ctx)` (bot.js:161-175): looks the user's session up
and re-renders; `if (!state) return` makes it a no-op when no session is
stored.  The looked-up session value is passed in directly. -/
def refreshPagination (session : Option (String × Nat))
    (store : List Track) (uid : Nat) (now : Int) : Option RenderResult :=
  match session with
  | none => none
  | some (key, page) =>
      some (showTracks (pickListByKey key store uid now) key page)

/-- C6: `showTracks` clamps the requested page to `[1, totalPages]` where
`totalPages = max 1 (ceil count / 10)`: 10 entries give a single page with no
Next affordance, 11 entries give two pages, Previous appears exactly when
`page > 1` and Next exactly when `page < totalPages`, and page 4 of a
25-entry view clamps to the last page (3). -/
theorem C6_pagination_clamp (l : List Track) (k : String) (p : Nat) :
    (1 ≤ (showTracks l k p).page
      ∧ (showTracks l k p).page ≤ (showTracks l k p).totalPages)
    ∧ (0 < l.length →
        (showTracks l k p).totalPages = (l.length + 9) / 10)
    ∧ (l.length = 10 →
        (showTracks l k p).totalPages = 1
        ∧ (showTracks l k p).hasNext = false)
    ∧ (l.length = 11 → (showTracks l k p).totalPages = 2)
    ∧ (l ≠ [] →
        ((showTracks l k p).hasPrev = true ↔ 1 < (showTracks l k p).page)
        ∧ ((showTracks l k p).hasNext = true
            ↔ (showTracks l k p).page < (showTracks l k p).totalPages))
    ∧ (l.length = 25 →
        (showTracks l k 4).page = 3 ∧ (showTracks l k 4).totalPages = 3
        ∧ (showTracks l k 4).entries.length = 5) := by
  refine ⟨?_, ?_, ?_, ?_, ?_, ?_⟩
  · unfold showTracks totalPagesFor perPage
    by_cases h : l.length = 0
    · simp [h]
    · simp [h]
      omega
  · intro h
    unfold showTracks totalPagesFor perPage
    have hne : ¬ l.length = 0 := by omega
    simp [hne]
    omega
  · intro h
    have hne : ¬ l.length = 0 := by omega
    unfold showTracks totalPagesFor perPage
    simp [h, hne]
  · intro h
    by_cases hz : l.length = 0
    · omega
    · unfold showTracks totalPagesFor perPage
      simp [h, hz]
  · intro h
    have hne : ¬ l.length = 0 := by
      intro hc
      exact h (List.eq_nil_of_length_eq_zero hc)
    unfold showTracks
    simp [hne]
  · intro h
    have hne : ¬ l.length = 0 := by omega
    unfold showTracks totalPagesFor perPage
    simp [h, hne]

/-- Tracks for concrete pagination runs: `paginationTracks n` has `n`
entries. -/
def paginationTracks (n : Nat) : List Track :=
  (List.range n).map (fun i =>
    { id := Nat.repr i, fileId := Nat.repr i, fileUniqueId := Nat.repr i,
      title := "t", userId := 1, voters := [], createdAt := Int.ofNat i,
      type := TrackType.original, messages := [] })

/-- C6 witness: the clamp evaluated on concrete views of 10, 11 and 25
entries. -/
theorem C6_pagination_clamp_witness :
    ((showTracks (paginationTracks 10) "all" 1).totalPages = 1
      ∧ (showTracks (paginationTracks 10) "all" 1).hasNext = false)
    ∧ (showTracks (paginationTracks 11) "all" 1).totalPages = 2
    ∧ ((showTracks (paginationTracks 25) "all" 4).page = 3
      ∧ (showTracks (paginationTracks 25) "all" 4).totalPages = 3
      ∧ (showTracks (paginationTracks 25) "all" 4).entries.length = 5) :=
  ⟨(C6_pagination_clamp (paginationTracks 10) "all" 1).2.2.1 (by decide),
    (C6_pagination_clamp (paginationTracks 11) "all" 1).2.2.2.1 (by decide),
    (C6_pagination_clamp (paginationTracks 25) "all" 4).2.2.2.2.2 (by decide)⟩

/-- C8 counterexample: rendering an empty list still stores a pagination
session `{key, page 1}` for the user (bot.js sets the session before the
empty check and, unlike the `part_000` revision, never deletes it), refuting
"leaves no stored pagination session". -/
theorem C8_counterexample :
    (showTracks ([] : List Track) "all" 1).sessionAfter = some ("all", 1)
    ∧ (showTracks ([] : List Track) "all" 1).sessionAfter ≠ none
    ∧ (showTracks ([] : List Track) "all" 1).emptyNotice = true := by
  refine ⟨by decide, by decide, by decide⟩

/-- C8 amended: rendering an empty list view replies with the empty notice
but still stores the pagination session `{key, page 1}` for the user (only
the `part_000` revision deletes it); a subsequent refresh for a user with no
stored session is a no-op. -/
theorem C8_amended (key : String) (reqPage : Nat) (store : List Track)
    (uid : Nat) (now : Int) :
    (showTracks ([] : List Track) key reqPage).sessionAfter = some (key, 1)
    ∧ (showTracks ([] : List Track) key reqPage).emptyNotice = true
    ∧ (showTracks ([] : List Track) key reqPage).entries = []
    ∧ refreshPagination none store uid now = none := by
  refine ⟨?_, rfl, rfl, rfl⟩
  unfold showTracks totalPagesFor perPage
  simp

/-- C8 amended witness: the empty render and the session-less refresh on
concrete inputs. -/
theorem C8_amended_witness :
    (showTracks ([] : List Track) "week" 5).sessionAfter = some ("week", 1)
    ∧ refreshPagination none [exStoredTrack] 1 300 = none :=
  ⟨(C8_amended "week" 5 [exStoredTrack] 1 300).1,
    (C8_amended "week" 5 [exStoredTrack] 1 300).2.2.2⟩

/-! ## Delete action handler (bot.js:406-425) -/

/-- The three exits of the `del_` action handler. -/
inductive DelOutcome where
  | noRights
  | notFound
  | deleted
deriving DecidableEq, Repr

/-- `trackList.findIndex(t => t.id === id)` + `trackList.splice(idx, 1)`
removes exactly the first track with the given id. -/
def removeFirstTrack (id : String) : List Track → List Track
  | [] => []
  | t :: ts => if t.id == id then ts else t :: removeFirstTrack id ts

/-- The delete action handler (bot.js:406-425).  A non-admin caller is
rejected; a missing id answers the callback `Не найден` and changes nothing;
otherwise every registered message is deleted best-effort, the track is
spliced out, the store saved, a confirmation sent and the pagination
refreshed (the refresh is re-rendering only and is modelled separately by
`refreshPagination`). -/
def delAction (store : List Track) (callerIsAdmin : Bool) (id : String) :
    List Track × DelOutcome × List Effect :=
  if !callerIsAdmin then
    (store, DelOutcome.noRights, [Effect.answerCb "Нет прав"])
  else
    match findTrack store id with
    | none => (store, DelOutcome.notFound, [Effect.answerCb "Не найден"])
    | some tr =>
      (removeFirstTrack id store, DelOutcome.deleted,
       tr.messages.map (fun m => Effect.delMsg m.chatId m.messageId)
         ++ [Effect.persist,
             Effect.reply ("🧹 Трек \"" ++ tr.title ++ "\" удалён."),
             Effect.answerCb "Удалено"])

/-- C7 counterexample: an admin deleting an id that is not in the store gets
the `Не найден` (not found) callback answer — a distinct outcome from the
success path's `Удалено` — refuting "the caller receives a success outcome";
the store is indeed unchanged. -/
theorem C7_counterexample :
    delAction [exStoredTrack] true "missing"
        = ([exStoredTrack], DelOutcome.notFound,
           [Effect.answerCb "Не найден"])
    ∧ DelOutcome.notFound ≠ DelOutcome.deleted
    ∧ Effect.answerCb "Не найден" ≠ Effect.answerCb "Удалено" := by
  refine ⟨by decide, by decide, by decide⟩

/-- C7 amended: deleting a track id that is not present is a no-op — the
store is unchanged and the handler returns early without raising an error —
but the caller is answered with the `Не найден` (not found) notice rather
than a success outcome. -/
theorem C7_amended (store : List Track) (id : String)
    (h : ∀ t ∈ store, t.id ≠ id) :
    delAction store true id
      = (store, DelOutcome.notFound, [Effect.answerCb "Не найден"]) := by
  have hfind : findTrack store id = none := by
    unfold findTrack
    rw [List.find?_eq_none]
    intro t ht
    exact beq_eq_false_iff_ne.mpr (h t ht) ▸ Bool.false_ne_true ∘ (·)
  simp [delAction, hfind]

/-- C7 amended witness: the no-op delete on a concrete store. -/
theorem C7_amended_witness :
    delAction [exStoredTrack] true "ghost"
      = ([exStoredTrack], DelOutcome.notFound,
         [Effect.answerCb "Не найден"]) :=
  C7_amended [exStoredTrack] "ghost" (by decide)

/-! ## Persist-versus-acknowledge ordering (bot.js:273-291, 347-357) -/

/-- Index of the first effect satisfying `p`. -/
def firstIdxAux (p : Effect → Bool) (i : Nat) : List Effect → Option Nat
  | [] => none
  | e :: es => if p e then some i else firstIdxAux p (i + 1) es

def firstIdx (p : Effect → Bool) (es : List Effect) : Option Nat :=
  firstIdxAux p 0 es

/-- Recognises the `safeSave()` call in a trace. -/
def isPersistEffect : Effect → Bool
  | Effect.persist => true
  | _ => false

/-- The upload handler's user-visible acknowledgement:
`` ctx.reply(`✅ Трек добавлен: ${safeName}`) `` (bot.js:273). -/
def isUploadAckEffect (name : String) (e : Effect) : Bool :=
  decide (e = Effect.reply ("✅ Трек добавлен: " ++ name))

/-- The like handler's user-visible acknowledgement: the toast
`💤 Лайк снят` or `🔥 Лайк поставлен` (bot.js:349, 354). -/
def isLikeAckEffect (e : Effect) : Bool :=
  decide (e = Effect.reply "💤 Лайк снят")
    || decide (e = Effect.reply "🔥 Лайк поставлен")

/-- The claimed ordering: in the trace, the first persisting write comes
before the first acknowledgement (vacuously true if either is absent). -/
def persistBeforeAck (ack : Effect → Bool) (es : List Effect) : Bool :=
  match firstIdx isPersistEffect es, firstIdx ack es with
  | some i, some j => decide (i < j)
  | _, _ => true

/-- The opposite ordering: the first acknowledgement strictly precedes the
first persisting write. -/
def ackBeforePersist (ack : Effect → Bool) (es : List Effect) : Bool :=
  match firstIdx ack es, firstIdx isPersistEffect es with
  | some i, some j => decide (i < j)
  | _, _ => false

/-- A fresh (non-duplicate) upload for concrete traces. -/
def exFreshUpload : FileMeta :=
  { fileId := "B", fileUniqueId := "U9", fileName := some "fresh" }

/-- C4 counterexample: in both state-changing handlers the user-visible
acknowledgement is emitted *before* the persisting write — the upload handler
replies `✅ Трек добавлен` three effects before `safeSave()`, and the like
handler sends its toast before `safeSave()` — refuting persist-before-
acknowledge. -/
theorem C4_counterexample :
    persistBeforeAck (isUploadAckEffect (safeName exFreshUpload 60))
        (uploadAudio [] exFreshUpload 2 0 9 60 10 11 12).2 = false
    ∧ persistBeforeAck isLikeAckEffect
        (likeAction [exTrack3Views] "T1" 7 "💥" (fun _ => false)).effects
        = false := by
  refine ⟨by decide, by decide⟩

/-- C4 amended: the ordering is reversed — for every non-duplicate upload and
every like toggle on an existing track, the acknowledgement message strictly
precedes the persisting write in the handler's effect sequence
(acknowledge-before-persist). -/
theorem C4_amended (store : List Track) (f : FileMeta) (uploader : Nat)
    (chatId : Int) (msgId : Nat) (now : Int) (mid1 mid2 mid3 : Nat)
    (lstore : List Track) (trackId : String) (uid : Nat) (eff : String)
    (editFails : MessageRef → Bool) (tr : Track)
    (hdup : isDuplicate store f = false)
    (hfind : findTrack lstore trackId = some tr) :
    ackBeforePersist (isUploadAckEffect (safeName f now))
        (uploadAudio store f uploader chatId msgId now mid1 mid2 mid3).2
        = true
    ∧ ackBeforePersist isLikeAckEffect
        (likeAction lstore trackId uid eff editFails).effects = true := by
  constructor
  · simp only [uploadAudio, hdup, Bool.false_eq_true, if_false,
      ackBeforePersist, firstIdx, firstIdxAux, isUploadAckEffect,
      isPersistEffect]
    simp
  · simp only [likeAction, hfind]
    by_cases hv : uid ∈ tr.voters
    · simp only [if_pos hv]
      simp [ackBeforePersist, firstIdx, firstIdxAux, isLikeAckEffect,
        isPersistEffect]
    · simp only [if_neg hv]
      by_cases he : eff = "💤 Лайк снят" ∨ eff = "🔥 Лайк поставлен"
      · simp [ackBeforePersist, firstIdx, firstIdxAux, isLikeAckEffect,
          isPersistEffect, he]
      · simp [ackBeforePersist, firstIdx, firstIdxAux, isLikeAckEffect,
          isPersistEffect, he]

/-- C4 amended witness: acknowledge-before-persist on the concrete upload and
like traces. -/
theorem C4_amended_witness :
    ackBeforePersist (isUploadAckEffect (safeName exFreshUpload 60))
        (uploadAudio [] exFreshUpload 2 0 9 60 10 11 12).2 = true
    ∧ ackBeforePersist isLikeAckEffect
        (likeAction [exTrack3Views] "T1" 7 "💥" (fun _ => false)).effects
        = true :=
  C4_amended [] exFreshUpload 2 0 9 60 10 11 12 [exTrack3Views] "T1" 7 "💥"
    (fun _ => false) exTrack3Views (by decide) (by decide)

end MusicBot
